import Mathlib

/-!
Shallow embedding of the compression route of src/app.py (function process_pdf,
operation == "compress", lines 99-175), together with the document classifier,
the vector-optimizing branch, the raster re-encoding loop and the persistence
step. External library calls (pikepdf.save, fitz extraction/serialization,
PIL decode/encode) are modelled at the level of what the route observes of
them; Python exceptions are modelled with Except.
-/

namespace PDeeF

/-- Byte strings are modelled as lists of naturals. -/
abbrev Bytes := List ℕ

/-! ### Document classifier (app.py lines 105-109) -/

/-- One page as the classifier sees it: the value of page.get("/Contents"),
absent when the page dictionary has no /Contents key.  The Python truth test
on the returned object is false exactly when the key is absent or the
content stream it designates is empty. -/
structure ClassPage where
  contents : Option Bytes
  deriving DecidableEq, Repr

/-- Truthiness of page.get("/Contents") inside the any(...) generator:
true exactly when the page exposes a non-empty content stream. -/
def pageHasContents (p : ClassPage) : Bool :=
  match p.contents with
  | none => false
  | some s => !s.isEmpty

/-- Outcome of the structural inspection in the try block (line 106-107):
either pikepdf.open succeeded and the pages were enumerated, or some step of
opening or enumerating raised, in which case the bare except (line 108)
catches it. -/
inductive Inspect where
  | done (pages : List ClassPage)
  | failed
  deriving DecidableEq, Repr

/-- Computation of the has_vector flag (lines 105-109).  The except branch
absorbs every structural-inspection failure and sets has_vector = False. -/
def hasVector : Inspect → Bool
  | .done pages => pages.any pageHasContents
  | .failed => false

/-- Classification of the document, as the spec names the two cases. -/
inductive DocClass where
  | Vector
  | Scanned
  deriving DecidableEq, Repr

/-- Classifier: the branch taken at line 110 on the has_vector flag.
Total by construction: it never throws. -/
def classify (i : Inspect) : DocClass :=
  if hasVector i then .Vector else .Scanned

/-! ### Raster per-image pipeline (app.py lines 127-150) -/

/-- Constant DPI_THRESHOLD = 200 (line 102). -/
def DPI_THRESHOLD : ℚ := 200

/-- Constant TARGET_DPI = 150 (line 103). -/
def TARGET_DPI : ℚ := 150

/-- Constant JPEG_QUALITY = 85 (line 104). -/
def JPEG_QUALITY : ℕ := 85

/-- A decoded PIL image as the loop observes it: its mode string, the first
component of its declared dpi metadata when present (image.info.get("dpi")),
and its pixel dimensions. -/
structure RawImage where
  mode : String
  dpi : Option ℚ
  width : ℕ
  height : ℕ
  deriving DecidableEq, Repr

/-- Choice of the compression variable (lines 132-137): mode "1" takes the
CCITT branch, mode "L" the JPEG branch, every other mode the JPEG branch. -/
def chooseCompression (mode : String) : String :=
  if mode = "1" then "CCITT"
  else if mode = "L" then "JPEG"
  else "JPEG"

/-- Effective dpi (line 138): image.info.get("dpi", (TARGET_DPI, TARGET_DPI))[0],
the declared horizontal resolution when present, else TARGET_DPI = 150. -/
def effectiveDpi (img : RawImage) : ℚ :=
  img.dpi.getD TARGET_DPI

/-- Dimensions after the conditional downsampling (lines 139-143): when the
effective dpi exceeds DPI_THRESHOLD, both dimensions are multiplied by
factor = TARGET_DPI / dpi and truncated by int(), which on these
non-negative values is the floor; otherwise they stay unchanged.  No lower
bound is applied before the resize call. -/
def resizedDims (img : RawImage) : ℕ × ℕ :=
  let dpi := effectiveDpi img
  if DPI_THRESHOLD < dpi then
    let factor := TARGET_DPI / dpi
    ((⌊(img.width : ℚ) * factor⌋).toNat, (⌊(img.height : ℚ) * factor⌋).toNat)
  else
    (img.width, img.height)

/-- Re-encoding target chosen by the save calls at lines 145-148. -/
inductive Encoding where
  | tiffGroup4
  | jpegQuality (q : ℕ)
  deriving DecidableEq, Repr

/-- The re-encoded image stream written back by doc.update_image: which
encoder ran, the pixel mode it saw, and the (possibly resized) dimensions. -/
structure EncodedImage where
  encoding : Encoding
  mode : String
  width : ℕ
  height : ℕ
  deriving DecidableEq, Repr

/-- Per-image transform (lines 132-148): choose the compression from the
mode, conditionally resize, then save either as TIFF group4 (the CCITT
branch, lossless) or as JPEG quality 85 (every other branch). -/
def encodeProcessed (img : RawImage) : EncodedImage :=
  let compression := chooseCompression img.mode
  let wh := resizedDims img
  { encoding := if compression = "CCITT" then Encoding.tiffGroup4
                else Encoding.jpegQuality JPEG_QUALITY
    mode := img.mode
    width := wh.1
    height := wh.2 }

/-! ### The fitz document and the raster loop (app.py lines 123-150) -/

/-- Contents of one embedded image stream before re-encoding: either PIL can
decode it to a raster image, or Image.open raises on it. -/
inductive ImgData where
  | decodable (img : RawImage)
  | corrupt
  deriving DecidableEq, Repr

/-- An image stream inside the working document: still the original embedded
stream, or already replaced by doc.update_image with a re-encoded stream. -/
inductive SData where
  | original (d : ImgData)
  | reencoded (e : EncodedImage)
  deriving DecidableEq, Repr

/-- One embedded image reference of the fitz document: its xref and the
stream currently stored under that xref. -/
structure FImage where
  xref : ℕ
  data : SData
  deriving DecidableEq, Repr

/-- One page of the fitz document, carrying its image references in
discovery order (page.get_images(full=True)). -/
structure FPage where
  images : List FImage
  deriving DecidableEq, Repr

/-- The fitz working document: its pages in order. -/
structure FDoc where
  pages : List FPage
  deriving DecidableEq, Repr

/-- Python exceptions the compress branch can propagate, plus the
CompressionError class named by section 7 of the spec, which appears in
the error taxonomy but is never raised by the code. -/
inductive PyErr where
  | decodeError
  | extractError
  | fitzOpenError
  | unboundLocalError (nm : String)
  | compressionError (imageIndex : Option ℕ)
  deriving DecidableEq, Repr

/-- All image references of the document, in page order then discovery
order. -/
def allImages (doc : FDoc) : List FImage :=
  doc.pages.flatMap (·.images)

/-- The xrefs of all image references of the document. -/
def xrefList (doc : FDoc) : List ℕ :=
  (allImages doc).map (·.xref)

/-- Structural skeleton of the document: pages in order, and on each page
the xrefs of its images in order.  The raster loop must preserve it. -/
def docShape (doc : FDoc) : List (List ℕ) :=
  doc.pages.map (fun p => p.images.map (·.xref))

/-- doc.extract_image(xref) (line 129): look up the stream currently stored
under the given xref; none models the raise on an unknown xref. -/
def extractImage (doc : FDoc) (x : ℕ) : Option SData :=
  ((allImages doc).find? (fun im => im.xref = x)).map (·.data)

/-- Image.open on an extracted stream (line 131): an original decodable
stream yields its raster image; a corrupt original stream raises; a stream
already rewritten by update_image was freshly produced by an encoder, so
reopening it yields an image with the encoded mode and dimensions and no
dpi metadata. -/
def decodeS : SData → Option RawImage
  | .original (.decodable img) => some img
  | .original .corrupt => none
  | .reencoded e => some { mode := e.mode, dpi := none, width := e.width, height := e.height }

/-- Pointwise effect of doc.update_image on one image reference: the image
stored under the written xref receives the re-encoded stream, every other
image is untouched. -/
def updOne (x : ℕ) (e : EncodedImage) (im : FImage) : FImage :=
  if im.xref = x then { im with data := SData.reencoded e } else im

/-- doc.update_image(xref, stream) (line 150): replace, everywhere in the
document, the stream stored under the given xref; pages and xrefs are
untouched. -/
def updateImage (doc : FDoc) (x : ℕ) (e : EncodedImage) : FDoc :=
  { pages := doc.pages.map (fun p => { images := p.images.map (updOne x e) }) }

/-- Inner loop over the image list of one page (lines 127-150): extract the
stream under the xref, decode it, transform and re-encode it, and write it
back; a failing decode propagates out of the whole route. -/
def processImgList (doc : FDoc) : List FImage → Except PyErr FDoc
  | [] => .ok doc
  | im :: rest =>
    match extractImage doc im.xref with
    | none => .error PyErr.extractError
    | some sd =>
      match decodeS sd with
      | none => .error PyErr.decodeError
      | some raw => processImgList (updateImage doc im.xref (encodeProcessed raw)) rest

/-- Default page used to model the in-range page indexing doc[page_index]. -/
def emptyPage : FPage := { images := [] }

/-- Image list of the page at the given index, as the loop body reads it
(page = doc[page_index]; images = page.get_images(full=True)). -/
def pageImages (doc : FDoc) (i : ℕ) : List FImage :=
  (doc.pages.getD i emptyPage).images

/-- Outer loop over the page indices (lines 124-126): range(len(doc)) is
materialized once, then each iteration reads the current document state. -/
def processPages : FDoc → List ℕ → Except PyErr FDoc
  | doc, [] => .ok doc
  | doc, i :: rest =>
    match processImgList doc (pageImages doc i) with
    | .error e => .error e
    | .ok doc1 => processPages doc1 rest

/-- The whole raster loop (lines 124-150) over the document opened by
fitz.open. -/
def processDocImages (doc : FDoc) : Except PyErr FDoc :=
  processPages doc (List.range doc.pages.length)

/-! ### Serialization and the vector branch -/

/-- Result of doc.save(buffer, garbage=4, deflate=True) (line 152),
modelled from the library contract: the save writes out every page of the
document; garbage collection level 4 removes only unreferenced objects,
never the pages themselves. -/
structure SavedPdf where
  content : FDoc
  deriving DecidableEq, Repr

/-- Serialization of the working document (lines 151-154). -/
def fitzSave (doc : FDoc) : SavedPdf :=
  { content := doc }

/-- Page count of the serialized output. -/
def savedPageCount (s : SavedPdf) : ℕ :=
  s.content.pages.length

/-- The two pikepdf save entry points the vector branch calls, for a fixed
library version: save(optimize_streams=True) and
save(optimize_streams=True, compression=CompressionLevel.default).  Both
write into a fresh BytesIO buffer and are functions of the opened pdf
object alone. -/
structure PikeLib where
  saveOptStreams : Bytes → Bytes
  saveOptStreamsDefault : Bytes → Bytes

/-- State the vector branch can touch: the immutable uploaded input bytes
(the file at pdf_path) and the opened pikepdf object. -/
structure VecState where
  inputBytes : Bytes
  pdfObj : Bytes
  deriving DecidableEq, Repr

/-- The vector branch as written (lines 111-120): a first stream-optimizing
save whose bytes are assigned to output_bytes, then a second save with
compression=CompressionLevel.default whose bytes overwrite them.  Both
saves write only into fresh buffers, so the state comes back unchanged. -/
def vectorBranchTwoSaves (lib : PikeLib) (s : VecState) : Bytes × VecState :=
  let _output1 := lib.saveOptStreams s.pdfObj
  let output2 := lib.saveOptStreamsDefault s.pdfObj
  (output2, s)

/-- Modelled from the spec: the collapsed design of section 9, a single
stream-optimizing save with default compression level. -/
def vectorBranchSingleSave (lib : PikeLib) (s : VecState) : Bytes × VecState :=
  (lib.saveOptStreamsDefault s.pdfObj, s)

/-! ### The full compress operation (app.py lines 99-168) -/

/-- The value held by the output_bytes local when the branch at lines
110-150 finishes: bytes from a pikepdf save, or a fitz serialization. -/
inductive OutBytes where
  | pike (b : Bytes)
  | fitzed (s : SavedPdf)
  deriving DecidableEq, Repr

/-- Inputs one compress request observes: the structural-inspection outcome
(lines 105-109), the opened pikepdf object when inspection succeeded, and
the outcome of fitz.open(pdf_path) on the scanned path (line 123). -/
structure CompressCase where
  inspect : Inspect
  pdfObj : Bytes
  fitzOpen : Except PyErr FDoc
  deriving Repr

/-- The compress branch of process_pdf (lines 99-155).  The if/else at
lines 110-150 leaves the local variable doc bound only on the scanned path;
the serialization at lines 151-154 sits at the same indentation level as
the if/else, so it runs on both paths, and on the vector path it raises
UnboundLocalError on the unbound doc.  Its result overwrites output_bytes
whenever it is reached. -/
def compressOp (lib : PikeLib) (c : CompressCase) : Except PyErr OutBytes :=
  let has_vector := hasVector c.inspect
  let branch : Except PyErr (Option OutBytes × Option FDoc) :=
    if has_vector then
      .ok (some (OutBytes.pike (vectorBranchTwoSaves lib
        { inputBytes := c.pdfObj, pdfObj := c.pdfObj }).1), none)
    else
      match c.fitzOpen with
      | .error e => .error e
      | .ok doc0 =>
        match processDocImages doc0 with
        | .error e => .error e
        | .ok doc1 => .ok (none, some doc1)
  match branch with
  | .error e => .error e
  | .ok (_, none) => .error (PyErr.unboundLocalError "doc")
  | .ok (_, some d) => .ok (OutBytes.fitzed (fitzSave d))

/-- A persisted row of the FileRecord table (lines 34-38, 162-168). -/
structure FileRecord where
  filename : String
  operation : String
  file_data : OutBytes
  deriving DecidableEq, Repr

/-- The compress request end to end, against a database state: when any
step of the branch raises, the exception propagates out of process_pdf
before the persistence code at lines 162-168 runs and the database is left
unchanged; otherwise a single new row holding the complete output bytes is
appended and its id returned. -/
def processCompress (lib : PikeLib) (c : CompressCase) (fname : String)
    (db : List FileRecord) : Except PyErr ℕ × List FileRecord :=
  match compressOp lib c with
  | .error e => (.error e, db)
  | .ok ob => (.ok db.length, db ++ [{ filename := fname, operation := "compress", file_data := ob }])

/-! ### Concrete cases used by evaluation theorems -/

/-- A pikepdf library instance whose saves are the identity, for concrete
evaluation. -/
def idPike : PikeLib :=
  { saveOptStreams := id, saveOptStreamsDefault := id }

/-- A request whose document is classified Vector: one page with a
non-empty content stream. -/
def vecCase : CompressCase :=
  { inspect := Inspect.done [{ contents := some [1] }]
    pdfObj := [37, 80, 68, 70]
    fitzOpen := Except.error PyErr.fitzOpenError }

/-- A scanned document whose only embedded image stream cannot be
decoded. -/
def corruptDoc : FDoc :=
  { pages := [{ images := [{ xref := 7, data := SData.original ImgData.corrupt }] }] }

/-- A request classified Scanned that opens to corruptDoc. -/
def corruptCase : CompressCase :=
  { inspect := Inspect.done [{ contents := none }]
    pdfObj := []
    fitzOpen := Except.ok corruptDoc }

/-- The running 300-dpi example of the spec: 3000 by 2400 pixels. -/
def img300 : RawImage :=
  { mode := "RGB", dpi := some 300, width := 3000, height := 2400 }

/-- An image with no declared resolution metadata. -/
def imgNoDpi : RawImage :=
  { mode := "L", dpi := none, width := 100, height := 50 }

/-- A 1 by 1 pixel image declared at 300 dpi: its downsampled dimensions
truncate to zero. -/
def tinyImg : RawImage :=
  { mode := "RGB", dpi := some 300, width := 1, height := 1 }

/-- A two-page scanned document with three decodable embedded images, none
of which passes the downsampling threshold. -/
def specDoc : FDoc :=
  { pages :=
      [ { images :=
            [ { xref := 1, data := SData.original (ImgData.decodable
                  { mode := "1", dpi := some 150, width := 100, height := 100 }) },
              { xref := 2, data := SData.original (ImgData.decodable
                  { mode := "L", dpi := none, width := 300, height := 200 }) } ] },
        { images :=
            [ { xref := 3, data := SData.original (ImgData.decodable
                  { mode := "RGB", dpi := some 200, width := 50, height := 40 }) } ] } ] }

/-- The document specDoc processes to: the same pages and xrefs, every
stream re-encoded in place. -/
def specDocOut : FDoc :=
  { pages :=
      [ { images :=
            [ { xref := 1, data := SData.reencoded
                  { encoding := Encoding.tiffGroup4, mode := "1", width := 100, height := 100 } },
              { xref := 2, data := SData.reencoded
                  { encoding := Encoding.jpegQuality 85, mode := "L", width := 300, height := 200 } } ] },
        { images :=
            [ { xref := 3, data := SData.reencoded
                  { encoding := Encoding.jpegQuality 85, mode := "RGB", width := 50, height := 40 } } ] } ] }

/-! ### Frame and abort lemmas for the raster loop -/

lemma updOne_xref (x : ℕ) (e : EncodedImage) (im : FImage) :
    (updOne x e im).xref = im.xref := by
  unfold updOne
  split <;> rfl

lemma updOne_of_ne (x : ℕ) (e : EncodedImage) (im : FImage) (h : ¬im.xref = x) :
    updOne x e im = im := by
  unfold updOne
  simp [h]

lemma docShape_updateImage (doc : FDoc) (x : ℕ) (e : EncodedImage) :
    docShape (updateImage doc x e) = docShape doc := by
  unfold docShape updateImage
  simp only [List.map_map]
  refine List.map_congr_left ?_
  intro p _
  simp only [Function.comp]
  rw [List.map_map]
  exact List.map_congr_left (fun im _ => updOne_xref x e im)

lemma allImages_updateImage (doc : FDoc) (x : ℕ) (e : EncodedImage) :
    allImages (updateImage doc x e) = (allImages doc).map (updOne x e) := by
  unfold allImages updateImage
  rw [List.flatMap_map, List.map_flatMap]

lemma xrefList_updateImage (doc : FDoc) (x : ℕ) (e : EncodedImage) :
    xrefList (updateImage doc x e) = xrefList doc := by
  unfold xrefList
  rw [allImages_updateImage, List.map_map]
  exact List.map_congr_left (fun im _ => updOne_xref x e im)

lemma mem_allImages_updateImage {im : FImage} (doc : FDoc) (x : ℕ) (e : EncodedImage)
    (him : im ∈ allImages doc) (hx : ¬im.xref = x) :
    im ∈ allImages (updateImage doc x e) := by
  rw [allImages_updateImage]
  exact List.mem_map.mpr ⟨im, him, updOne_of_ne x e im hx⟩

lemma pageImages_updateImage {im : FImage} (doc : FDoc) (x : ℕ) (e : EncodedImage) (i : ℕ)
    (him : im ∈ pageImages doc i) (hx : ¬im.xref = x) :
    im ∈ pageImages (updateImage doc x e) i := by
  unfold pageImages at him ⊢
  by_cases h : i < doc.pages.length
  · have h2 : i < (updateImage doc x e).pages.length := by
      simpa [updateImage] using h
    rw [List.getD_eq_getElem _ _ h2]
    rw [List.getD_eq_getElem _ _ h] at him
    have hpage : (updateImage doc x e).pages[i]
        = { images := (doc.pages[i]).images.map (updOne x e) } := by
      simp [updateImage, List.getElem_map]
    rw [hpage]
    exact List.mem_map.mpr ⟨im, him, updOne_of_ne x e im hx⟩
  · rw [List.getD_eq_default _ _ (Nat.le_of_not_lt h)] at him
    simp [emptyPage] at him

lemma mem_allImages_of_pageImages {im : FImage} (doc : FDoc) (i : ℕ)
    (him : im ∈ pageImages doc i) : im ∈ allImages doc := by
  unfold pageImages at him
  unfold allImages
  by_cases h : i < doc.pages.length
  · rw [List.getD_eq_getElem _ _ h] at him
    exact List.mem_flatMap.mpr ⟨doc.pages[i], List.getElem_mem h, him⟩
  · rw [List.getD_eq_default _ _ (Nat.le_of_not_lt h)] at him
    simp [emptyPage] at him

lemma sublist_flatMap_of_mem {α β : Type _} (f : α → List β) {a : α} {l : List α}
    (h : a ∈ l) : (f a).Sublist (l.flatMap f) := by
  induction l with
  | nil => cases h
  | cons b t ih =>
    rw [List.flatMap_cons]
    rcases List.mem_cons.mp h with rfl | h2
    · exact List.sublist_append_left _ _
    · exact (ih h2).trans (List.sublist_append_right _ _)

lemma pageXrefs_nodup (doc : FDoc) (i : ℕ) (hnd : (xrefList doc).Nodup) :
    ((pageImages doc i).map (fun im => im.xref)).Nodup := by
  unfold xrefList at hnd
  unfold pageImages
  by_cases h : i < doc.pages.length
  · rw [List.getD_eq_getElem _ _ h]
    have hs : ((doc.pages[i]).images).Sublist (allImages doc) :=
      sublist_flatMap_of_mem _ (List.getElem_mem h)
    exact List.Nodup.sublist (hs.map _) hnd
  · rw [List.getD_eq_default _ _ (Nat.le_of_not_lt h)]
    simp [emptyPage]

lemma extractImage_eq_of_mem {im : FImage} (doc : FDoc)
    (him : im ∈ allImages doc) (hnd : (xrefList doc).Nodup) :
    extractImage doc im.xref = some im.data := by
  unfold xrefList at hnd
  unfold extractImage
  cases hf : (allImages doc).find? (fun j => j.xref = im.xref) with
  | none =>
    exfalso
    have := List.find?_eq_none.mp hf im him
    simp at this
  | some j =>
    have hj : j.xref = im.xref := by simpa using List.find?_some hf
    have hjm : j ∈ allImages doc := List.mem_of_find?_eq_some hf
    have hji : j = im := List.inj_on_of_nodup_map hnd hjm him hj
    rw [hji]
    rfl

lemma processImgList_ok_shape :
    ∀ (l : List FImage) (doc doc1 : FDoc),
      processImgList doc l = Except.ok doc1 → docShape doc1 = docShape doc := by
  intro l
  induction l with
  | nil =>
    intro doc doc1 h
    simp only [processImgList] at h
    cases h
    rfl
  | cons im rest ih =>
    intro doc doc1 h
    simp only [processImgList] at h
    cases hx : extractImage doc im.xref with
    | none => simp [hx] at h
    | some sd =>
      simp only [hx] at h
      cases hd : decodeS sd with
      | none => simp [hd] at h
      | some raw =>
        simp only [hd] at h
        exact (ih _ _ h).trans (docShape_updateImage doc im.xref (encodeProcessed raw))

lemma processPages_ok_shape :
    ∀ (idxs : List ℕ) (doc doc1 : FDoc),
      processPages doc idxs = Except.ok doc1 → docShape doc1 = docShape doc := by
  intro idxs
  induction idxs with
  | nil =>
    intro doc doc1 h
    simp only [processPages] at h
    cases h
    rfl
  | cons i rest ih =>
    intro doc doc1 h
    simp only [processPages] at h
    cases hp : processImgList doc (pageImages doc i) with
    | error e => rw [hp] at h; cases h
    | ok docm =>
      rw [hp] at h
      exact (ih _ _ h).trans (processImgList_ok_shape _ _ _ hp)

lemma xrefList_eq_flatten (doc : FDoc) : xrefList doc = (docShape doc).flatten := by
  unfold xrefList allImages docShape
  induction doc.pages with
  | nil => rfl
  | cons p t ih =>
    simp only [List.flatMap_cons, List.map_cons, List.map_append, List.flatten_cons]
    rw [ih]

lemma xrefList_eq_of_shape {doc doc1 : FDoc} (h : docShape doc1 = docShape doc) :
    xrefList doc1 = xrefList doc := by
  rw [xrefList_eq_flatten, xrefList_eq_flatten, h]

lemma processImgList_cases (l : List FImage) :
    ∀ doc : FDoc,
      (∀ im ∈ l, im.xref ∈ xrefList doc) →
      processImgList doc l = Except.error PyErr.decodeError
      ∨ ∃ doc1, processImgList doc l = Except.ok doc1
          ∧ ∀ (j : ℕ) (im : FImage), im ∈ pageImages doc j →
              im.xref ∉ l.map (fun k => k.xref) → im ∈ pageImages doc1 j := by
  induction l with
  | nil =>
    intro doc _
    exact Or.inr ⟨doc, rfl, fun j im him _ => him⟩
  | cons im0 rest ih =>
    intro doc hsub
    have hx0 : im0.xref ∈ xrefList doc := hsub im0 (List.mem_cons_self _ _)
    obtain ⟨j0, hj0mem, hj0x⟩ : ∃ j0 ∈ allImages doc, j0.xref = im0.xref := by
      unfold xrefList at hx0
      simpa using List.mem_map.mp hx0
    obtain ⟨j, hj⟩ : ∃ j, (allImages doc).find? (fun k => k.xref = im0.xref) = some j := by
      cases hf : (allImages doc).find? (fun k => k.xref = im0.xref) with
      | none => exact absurd (List.find?_eq_none.mp hf j0 hj0mem) (by simp [hj0x])
      | some j => exact ⟨j, rfl⟩
    have hextract : extractImage doc im0.xref = some j.data := by
      unfold extractImage
      rw [hj]
      rfl
    cases hd : decodeS j.data with
    | none =>
      left
      simp only [processImgList, hextract, hd]
    | some raw =>
      have hstep : processImgList doc (im0 :: rest)
          = processImgList (updateImage doc im0.xref (encodeProcessed raw)) rest := by
        simp only [processImgList, hextract, hd]
      have hsub2 : ∀ im ∈ rest,
          im.xref ∈ xrefList (updateImage doc im0.xref (encodeProcessed raw)) := by
        intro im hmem
        rw [xrefList_updateImage]
        exact hsub im (List.mem_cons_of_mem _ hmem)
      rcases ih (updateImage doc im0.xref (encodeProcessed raw)) hsub2 with herr | ⟨doc1, hok, hpres⟩
      · left
        rw [hstep]
        exact herr
      · right
        refine ⟨doc1, by rw [hstep]; exact hok, ?_⟩
        intro k im him hnotin
        simp only [List.map_cons, List.mem_cons, not_or] at hnotin
        exact hpres k im (pageImages_updateImage doc _ _ k him hnotin.1) hnotin.2

lemma processImgList_corrupt (l : List FImage) :
    ∀ (doc : FDoc) (bad : FImage),
      bad.data = SData.original ImgData.corrupt →
      bad ∈ l →
      (∀ im ∈ l, im ∈ allImages doc) →
      ((l.map (fun k => k.xref)).Nodup) →
      (xrefList doc).Nodup →
      processImgList doc l = Except.error PyErr.decodeError := by
  induction l with
  | nil =>
    intro doc bad _ h
    cases h
  | cons im0 rest ih =>
    intro doc bad hbdata hbmem hsub hlnd hnd
    have him0 : im0 ∈ allImages doc := hsub im0 (List.mem_cons_self _ _)
    have hextract : extractImage doc im0.xref = some im0.data :=
      extractImage_eq_of_mem doc him0 hnd
    have hlnd2 : im0.xref ∉ rest.map (fun k => k.xref)
        ∧ (rest.map (fun k => k.xref)).Nodup := by
      simpa only [List.map_cons, List.nodup_cons] using hlnd
    by_cases hb0 : bad = im0
    · rcases hb0 with rfl
      simp only [processImgList, hextract, hbdata, decodeS]
    · have hbrest : bad ∈ rest := by
        rcases List.mem_cons.mp hbmem with h | h
        · exact absurd h hb0
        · exact h
      cases hd : decodeS im0.data with
      | none =>
        simp only [processImgList, hextract, hd]
      | some raw =>
        have hstep : processImgList doc (im0 :: rest)
            = processImgList (updateImage doc im0.xref (encodeProcessed raw)) rest := by
          simp only [processImgList, hextract, hd]
        rw [hstep]
        refine ih (updateImage doc im0.xref (encodeProcessed raw)) bad hbdata hbrest ?_ hlnd2.2 ?_
        · intro im hmem
          have himdoc : im ∈ allImages doc := hsub im (List.mem_cons_of_mem _ hmem)
          have hxne : ¬im.xref = im0.xref := by
            intro he
            exact hlnd2.1 (List.mem_map.mpr ⟨im, hmem, he⟩)
          exact mem_allImages_updateImage doc _ _ himdoc hxne
        · rw [xrefList_updateImage]
          exact hnd

lemma processPages_corrupt (idxs : List ℕ) :
    ∀ (doc : FDoc) (i : ℕ) (bad : FImage),
      bad.data = SData.original ImgData.corrupt →
      i ∈ idxs →
      bad ∈ pageImages doc i →
      (xrefList doc).Nodup →
      processPages doc idxs = Except.error PyErr.decodeError := by
  induction idxs with
  | nil =>
    intro doc i bad _ h
    cases h
  | cons j rest ih =>
    intro doc i bad hbdata hidx hbpage hnd
    by_cases hbj : bad ∈ pageImages doc j
    · have herr : processImgList doc (pageImages doc j) = Except.error PyErr.decodeError := by
        refine processImgList_corrupt (pageImages doc j) doc bad hbdata hbj ?_ ?_ hnd
        · intro im hmem
          exact mem_allImages_of_pageImages doc j hmem
        · exact pageXrefs_nodup doc j hnd
      simp only [processPages]
      rw [herr]
    · have hirest : i ∈ rest := by
        rcases List.mem_cons.mp hidx with rfl | h
        · exact absurd hbpage hbj
        · exact h
      have hsub : ∀ im ∈ pageImages doc j, im.xref ∈ xrefList doc := by
        intro im hmem
        unfold xrefList
        exact List.mem_map.mpr ⟨im, mem_allImages_of_pageImages doc j hmem, rfl⟩
      rcases processImgList_cases (pageImages doc j) doc hsub with herr | ⟨docm, hok, hpres⟩
      · simp only [processPages]
        rw [herr]
      · have hbadx : bad.xref ∉ (pageImages doc j).map (fun k => k.xref) := by
          intro hmem
          obtain ⟨im, himj, hx⟩ := List.mem_map.mp hmem
          have him_all : im ∈ allImages doc := mem_allImages_of_pageImages doc j himj
          have hbad_all : bad ∈ allImages doc := mem_allImages_of_pageImages doc i hbpage
          have hieq : im = bad := by
            unfold xrefList at hnd
            exact List.inj_on_of_nodup_map hnd him_all hbad_all hx
          exact hbj (hieq ▸ himj)
        have hbpage2 : bad ∈ pageImages docm i := hpres i bad hbpage hbadx
        have hnd2 : (xrefList docm).Nodup := by
          rw [xrefList_eq_of_shape (processImgList_ok_shape _ _ _ hok)]
          exact hnd
        simp only [processPages]
        rw [hok]
        exact ih docm i bad hbdata hirest hbpage2 hnd2

/-! ### Claim theorems -/

/-- Claim C1: the classifier returns Vector when any page exposes a
non-empty content stream, Scanned when none does, and Scanned whenever the
structural inspection fails; being a total function of the inspection
outcome, it never throws. -/
theorem classifier_contract :
    (∀ pages : List ClassPage, (∃ p ∈ pages, pageHasContents p = true) →
        classify (Inspect.done pages) = DocClass.Vector)
    ∧ (∀ pages : List ClassPage, (∀ p ∈ pages, pageHasContents p = false) →
        classify (Inspect.done pages) = DocClass.Scanned)
    ∧ classify Inspect.failed = DocClass.Scanned := by
  refine ⟨?_, ?_, rfl⟩
  · intro pages h
    have hv : hasVector (Inspect.done pages) = true := by
      simpa [hasVector, List.any_eq_true] using h
    simp [classify, hv]
  · intro pages h
    have hv : hasVector (Inspect.done pages) = false := by
      simp only [hasVector, List.any_eq_false]
      intro p hp
      simp [h p hp]
    simp [classify, hv]

/-- Witness for C1 at concrete documents. -/
theorem classifier_contract_witness :
    classify (Inspect.done [{ contents := some [1] }]) = DocClass.Vector
    ∧ classify (Inspect.done [{ contents := none }, { contents := some [] }])
        = DocClass.Scanned
    ∧ classify Inspect.failed = DocClass.Scanned :=
  ⟨classifier_contract.1 _ ⟨{ contents := some [1] }, by simp, by decide⟩,
   classifier_contract.2.1 _ (by decide),
   classifier_contract.2.2⟩

/-- Claim C3: the re-encoding format is a fixed lookup on the color mode
alone: mode "1" (bilevel) goes to lossless TIFF group4, mode "L"
(grayscale) and every other mode go to JPEG at quality 85, and two images
with the same mode always receive the same format. -/
theorem encoding_fixed_table :
    (∀ img : RawImage, img.mode = "1" →
        (encodeProcessed img).encoding = Encoding.tiffGroup4)
    ∧ (∀ img : RawImage, img.mode = "L" →
        (encodeProcessed img).encoding = Encoding.jpegQuality 85)
    ∧ (∀ img : RawImage, img.mode ≠ "1" → img.mode ≠ "L" →
        (encodeProcessed img).encoding = Encoding.jpegQuality 85)
    ∧ ∀ i1 i2 : RawImage, i1.mode = i2.mode →
        (encodeProcessed i1).encoding = (encodeProcessed i2).encoding := by
  refine ⟨?_, ?_, ?_, ?_⟩
  · intro img h
    simp [encodeProcessed, chooseCompression, h]
  · intro img h
    simp [encodeProcessed, chooseCompression, h, JPEG_QUALITY]
  · intro img h1 h2
    simp [encodeProcessed, chooseCompression, h1, h2, JPEG_QUALITY]
  · intro i1 i2 h
    simp [encodeProcessed, chooseCompression, h]

/-- Witness for C3 at one image of each mode class. -/
theorem encoding_fixed_table_witness :
    (encodeProcessed { mode := "1", dpi := none, width := 2, height := 2 }).encoding
        = Encoding.tiffGroup4
    ∧ (encodeProcessed { mode := "L", dpi := none, width := 2, height := 2 }).encoding
        = Encoding.jpegQuality 85
    ∧ (encodeProcessed { mode := "RGB", dpi := none, width := 2, height := 2 }).encoding
        = Encoding.jpegQuality 85
    ∧ (encodeProcessed { mode := "CMYK", dpi := none, width := 2, height := 2 }).encoding
        = (encodeProcessed { mode := "CMYK", dpi := some 72, width := 9, height := 9 }).encoding :=
  ⟨encoding_fixed_table.1 _ rfl,
   encoding_fixed_table.2.1 _ rfl,
   encoding_fixed_table.2.2.1 _ (by decide) (by decide),
   encoding_fixed_table.2.2.2 _ _ rfl⟩

/-- Claim C4: the effective dpi is the declared resolution when present and
150 otherwise; above the 200 threshold both dimensions become the input
dimensions scaled by 150 over the effective dpi and rounded down, and at or
below the threshold they are unchanged. -/
theorem dpi_downsample_rule (img : RawImage) :
    (img.dpi = none → effectiveDpi img = 150)
    ∧ (200 < effectiveDpi img →
        resizedDims img
          = ((⌊(img.width : ℚ) * (150 / effectiveDpi img)⌋).toNat,
             (⌊(img.height : ℚ) * (150 / effectiveDpi img)⌋).toNat))
    ∧ (effectiveDpi img ≤ 200 → resizedDims img = (img.width, img.height)) := by
  refine ⟨?_, ?_, ?_⟩
  · intro h
    simp [effectiveDpi, h, TARGET_DPI]
  · intro h
    simp [resizedDims, DPI_THRESHOLD, TARGET_DPI, h]
  · intro h
    simp [resizedDims, DPI_THRESHOLD, TARGET_DPI, not_lt.mpr h]

/-- Witness for C4: the 300-dpi 3000 by 2400 example halves to 1500 by
1200, and an image with no dpi metadata defaults to 150 and keeps its
dimensions. -/
theorem dpi_downsample_rule_witness :
    (effectiveDpi imgNoDpi = 150 ∧ resizedDims imgNoDpi = (100, 50))
    ∧ (200 < effectiveDpi img300 ∧ resizedDims img300 = (1500, 1200)) :=
  ⟨⟨(dpi_downsample_rule imgNoDpi).1 rfl,
    (dpi_downsample_rule imgNoDpi).2.2 (by norm_num [effectiveDpi, imgNoDpi, TARGET_DPI])⟩,
   ⟨by norm_num [effectiveDpi, img300], by
      rw [(dpi_downsample_rule img300).2.1 (by norm_num [effectiveDpi, img300])]
      norm_num [effectiveDpi, img300]
      omega⟩⟩

/-- Claim C10: the downsampling step truncates with no lower bound: a 1 by
1 image declared at 300 dpi passes the threshold, its computed target
dimensions are 0 by 0, and they flow unguarded into the resize and the
saved stream. -/
theorem downsample_unguarded_zero :
    DPI_THRESHOLD < effectiveDpi tinyImg
    ∧ resizedDims tinyImg = (0, 0)
    ∧ encodeProcessed tinyImg
        = { encoding := Encoding.jpegQuality 85, mode := "RGB", width := 0, height := 0 } := by
  have h2 : resizedDims tinyImg = (0, 0) := by
    norm_num [resizedDims, effectiveDpi, tinyImg, TARGET_DPI, DPI_THRESHOLD]
  have hm : tinyImg.mode = "RGB" := rfl
  refine ⟨by norm_num [DPI_THRESHOLD, effectiveDpi, tinyImg], h2, ?_⟩
  simp [encodeProcessed, chooseCompression, hm, h2, JPEG_QUALITY]

/-- Claim C7: the vector strategy leaves its state, the input bytes
included, unchanged, and a second run on that state returns the same
bytes. -/
theorem vector_strategy_pure (lib : PikeLib) (s : VecState) :
    (vectorBranchTwoSaves lib s).2 = s
    ∧ (vectorBranchTwoSaves lib s).1
        = (vectorBranchTwoSaves lib (vectorBranchTwoSaves lib s).2).1 :=
  ⟨rfl, rfl⟩

/-- Claim C9: the double-save sequence of the vector branch is observably
the single final save: the first result is overwritten before anything
reads it. -/
theorem vector_double_save_equiv (lib : PikeLib) (s : VecState) :
    vectorBranchTwoSaves lib s = vectorBranchSingleSave lib s :=
  rfl

/-- Claim C2 (code bug in the source): on a Vector-classified document the
serialization at lines 151-154, which sits outside the else branch, runs
with the local doc unbound, so the request raises UnboundLocalError and the
pikepdf save result is never returned or persisted. -/
theorem vector_result_never_persisted :
    hasVector vecCase.inspect = true
    ∧ compressOp idPike vecCase = Except.error (PyErr.unboundLocalError "doc")
    ∧ processCompress idPike vecCase "a.pdf" []
        = (Except.error (PyErr.unboundLocalError "doc"), []) :=
  ⟨by decide, rfl, rfl⟩

/-- Claim C6: every compress request either propagates a single error with
the database left unchanged, or appends exactly one row whose blob is the
serialization of a completely processed document. -/
theorem compress_all_or_nothing (lib : PikeLib) (c : CompressCase)
    (fname : String) (db : List FileRecord) :
    (∃ e, processCompress lib c fname db = (Except.error e, db))
    ∨ (∃ doc0 doc1, c.fitzOpen = Except.ok doc0
        ∧ processDocImages doc0 = Except.ok doc1
        ∧ processCompress lib c fname db
            = (Except.ok db.length,
               db ++ [{ filename := fname, operation := "compress",
                        file_data := OutBytes.fitzed (fitzSave doc1) }])) := by
  cases hv : hasVector c.inspect with
  | true =>
    left
    exact ⟨PyErr.unboundLocalError "doc", by simp [processCompress, compressOp, hv]⟩
  | false =>
    cases hopen : c.fitzOpen with
    | error e =>
      left
      exact ⟨e, by simp [processCompress, compressOp, hv, hopen]⟩
    | ok doc0 =>
      cases hproc : processDocImages doc0 with
      | error e =>
        left
        exact ⟨e, by simp [processCompress, compressOp, hv, hopen, hproc]⟩
      | ok doc1 =>
        right
        exact ⟨doc0, doc1, rfl, hproc,
          by simp [processCompress, compressOp, hv, hopen, hproc]⟩

/-- Claim C8: a successful raster pass replaces image streams in place and
keeps the whole document skeleton: the same pages carrying the same xrefs,
hence an unchanged page count, and the serialization with garbage
collection writes exactly those pages. -/
theorem raster_frame_pages (doc doc1 : FDoc)
    (h : processDocImages doc = Except.ok doc1) :
    docShape doc1 = docShape doc
    ∧ doc1.pages.length = doc.pages.length
    ∧ savedPageCount (fitzSave doc1) = doc.pages.length := by
  have hs : docShape doc1 = docShape doc := processPages_ok_shape _ _ _ h
  have hl : doc1.pages.length = doc.pages.length := by
    have := congrArg List.length hs
    simpa [docShape] using this
  exact ⟨hs, hl, by simpa [savedPageCount, fitzSave] using hl⟩

/-- Witness for C8: the three-image two-page document processes
successfully, in place, with both pages surviving serialization. -/
theorem raster_frame_pages_witness :
    processDocImages specDoc = Except.ok specDocOut
    ∧ docShape specDocOut = docShape specDoc
    ∧ specDocOut.pages.length = specDoc.pages.length
    ∧ savedPageCount (fitzSave specDocOut) = specDoc.pages.length :=
  have h : processDocImages specDoc = Except.ok specDocOut := rfl
  ⟨h, (raster_frame_pages specDoc specDocOut h).1,
      (raster_frame_pages specDoc specDocOut h).2.1,
      (raster_frame_pages specDoc specDocOut h).2.2⟩

/-- Claim C5 counterexample: on a scanned document whose only embedded
image (index 0) fails to decode, the operation aborts with the raw decode
error, which is not a CompressionError identifying the failing image
index. -/
theorem corrupt_abort_error_shape :
    (processCompress idPike corruptCase "s.pdf" []).1 = Except.error PyErr.decodeError
    ∧ PyErr.decodeError ≠ PyErr.compressionError (some 0)
    ∧ PyErr.decodeError ≠ PyErr.compressionError none := by
  refine ⟨rfl, by decide, by decide⟩

/-- Claim C5 (amended): whenever any embedded image of a scanned document
with distinct xrefs fails to decode, the whole operation aborts with the
propagated decode error — no image is silently skipped and no partially
compressed document reaches the database. -/
theorem raster_abort_on_corrupt (lib : PikeLib) (c : CompressCase)
    (fname : String) (db : List FileRecord) (doc0 : FDoc) (p : FPage) (bad : FImage)
    (hvec : hasVector c.inspect = false)
    (hopen : c.fitzOpen = Except.ok doc0)
    (hnd : (xrefList doc0).Nodup)
    (hp : p ∈ doc0.pages)
    (hbad : bad ∈ p.images)
    (hdata : bad.data = SData.original ImgData.corrupt) :
    processDocImages doc0 = Except.error PyErr.decodeError
    ∧ processCompress lib c fname db = (Except.error PyErr.decodeError, db) := by
  obtain ⟨i, hi, hpi⟩ := List.mem_iff_getElem.mp hp
  have hbp : bad ∈ pageImages doc0 i := by
    unfold pageImages
    rw [List.getD_eq_getElem _ _ hi, hpi]
    exact hbad
  have hrange : i ∈ List.range doc0.pages.length := List.mem_range.mpr hi
  have herr : processDocImages doc0 = Except.error PyErr.decodeError :=
    processPages_corrupt _ doc0 i bad hdata hrange hbp hnd
  refine ⟨herr, ?_⟩
  simp [processCompress, compressOp, hvec, hopen, herr]

/-- Witness for C5 at the concrete corrupt one-image document. -/
theorem raster_abort_on_corrupt_witness :
    processDocImages corruptDoc = Except.error PyErr.decodeError
    ∧ processCompress idPike corruptCase "c.pdf" []
        = (Except.error PyErr.decodeError, []) :=
  raster_abort_on_corrupt idPike corruptCase "c.pdf" [] corruptDoc
    { images := [{ xref := 7, data := SData.original ImgData.corrupt }] }
    { xref := 7, data := SData.original ImgData.corrupt }
    (by decide) rfl (by decide) (by decide) (by decide) rfl

end PDeeF
